import Mathlib

/-!
Shallow embedding of the esp-voice-server core, for verification of its
specification.  The embedding covers:

* the PCM1 envelope codec (src/core/pcm.ts): createPcmHeader, parsePcmHeader,
  calculateDuration;
* the per-connection frame classifier (VoiceWebSocketServer.handleMessage);
* the session manager (SessionManager): createSession, addChunk, getStats,
  endSession, setSessionData;
* the linear-interpolation resampler (resampleInt16Mono in
  src/core/audio-conversion.ts).

Byte buffers are modelled as lists of naturals (one entry per byte),
timestamps as naturals (milliseconds), JS number arithmetic that the claims
read exactly (durations, interpolation) as integers and rationals.
-/

namespace EspVoice

/-! ### Byte-buffer primitives -/

/-- Reads byte `i` of a buffer; out-of-range reads only occur behind length
guards in the source, so the default value is never observable there. -/
def byteAt (l : List Nat) (i : Nat) : Nat := l.getD i 0

/-- Reads a little-endian unsigned 32-bit integer at offset `off`
(`DataView.getUint32(off, true)`). -/
def readU32LE (l : List Nat) (off : Nat) : Nat :=
  byteAt l off + 256 * byteAt l (off + 1) + 65536 * byteAt l (off + 2) +
    16777216 * byteAt l (off + 3)

/-- Reads a little-endian unsigned 16-bit integer at offset `off`
(`DataView.getUint16(off, true)`). -/
def readU16LE (l : List Nat) (off : Nat) : Nat :=
  byteAt l off + 256 * byteAt l (off + 1)

/-- Builds the 4-character string of the first four byte values of a buffer,
as `String.fromCharCode(view.getUint8(0), ..., view.getUint8(3))` does in
`parsePcmHeader` (and as `data.slice(0, 4).toString('utf8')` does in
`handleMessage` for the ASCII-only comparisons performed on the result). -/
def fromCharCode4 (l : List Nat) : String :=
  String.mk [Char.ofNat (byteAt l 0), Char.ofNat (byteAt l 1),
    Char.ofNat (byteAt l 2), Char.ofNat (byteAt l 3)]

/-! ### PCM1 envelope codec (src/core/pcm.ts) -/

/-- Parsed PCM1 header (types/index.ts `PcmHeader`). -/
structure PcmHeader where
  magic : String
  sample_rate : Nat
  channels : Nat
  bits : Nat
  frame_samps : Nat
  reserved : Nat
  deriving DecidableEq, Repr

/-- Embedding of `parsePcmHeader`: length guard, magic guard, then the five
little-endian field reads. -/
def parsePcmHeader (buffer : List Nat) : Option PcmHeader :=
  if buffer.length < 16 then none
  else if fromCharCode4 buffer = "PCM1" then
    some { magic := fromCharCode4 buffer
           sample_rate := readU32LE buffer 4
           channels := byteAt buffer 8
           bits := byteAt buffer 9
           frame_samps := readU16LE buffer 10
           reserved := readU16LE buffer 12 }
  else none

/-- Embedding of `createPcmHeader`: a 16-byte buffer holding the ASCII magic
"PCM1", the sample rate as u32 LE, channels and bits as single bytes, the
frame sample count as u16 LE, and four zero bytes (reserved + padding).
`Buffer.writeUIntNLE` rejects out-of-range values, so each byte is the
corresponding base-256 digit of the written value. -/
def createPcmHeader (sampleRate channels bits frameSamps : Nat) : List Nat :=
  [80, 67, 77, 49,
   sampleRate % 256, sampleRate / 256 % 256, sampleRate / 65536 % 256,
   sampleRate / 16777216 % 256,
   channels % 256, bits % 256,
   frameSamps % 256, frameSamps / 256 % 256,
   0, 0, 0, 0]

/-- Embedding of `calculateDuration`, with the floating-point divisions read
as exact rational arithmetic. -/
def calculateDuration (dataSize sampleRate channels bitsPerSample : Nat) : ℚ :=
  (dataSize : ℚ) / (((bitsPerSample : ℚ) / 8) * channels) / sampleRate

/-! ### Frame classifier (VoiceWebSocketServer.handleMessage) -/

/-- An inbound WebSocket frame: textual, or a binary buffer. -/
inductive Frame where
  | text (message : String)
  | bin (data : List Nat)
  deriving DecidableEq, Repr

/-- The typed event handed to `handlers.onMessage` (types `MessageType`). -/
inductive MessageType where
  | text (message : String)
  | header (data : List Nat) (h : PcmHeader)
  | audio (data : List Nat)
  | endStream
  deriving DecidableEq, Repr

/-- The byte sequence of the end-of-stream control frame: ASCII "END"
followed by a NUL byte.  `handleMessage` compares `data.toString('utf8')`
with the literal, which for a 4-byte buffer holds exactly of these bytes. -/
def endFrameBytes : List Nat := [69, 78, 68, 0]

/-- Embedding of `VoiceWebSocketServer.handleMessage`.  The per-connection
protocol state is `session.header : Option PcmHeader` (absent =
AWAITING_HEADER, present = STREAMING).  Returns the new state, the emitted
event if any, and the warnings logged.  The inline header parse of the
source reads exactly the `parsePcmHeader` fields. -/
def handleMessage (hdr : Option PcmHeader) (frame : Frame) :
    Option PcmHeader × Option MessageType × List String :=
  match frame with
  | .text s => (hdr, some (.text s), [])
  | .bin data =>
    if hdr = none ∧ 16 ≤ data.length ∧ fromCharCode4 data = "PCM1" then
      let h : PcmHeader :=
        { magic := fromCharCode4 data
          sample_rate := readU32LE data 4
          channels := byteAt data 8
          bits := byteAt data 9
          frame_samps := readU16LE data 10
          reserved := readU16LE data 12 }
      (some h, some (.header data h), [])
    else if data.length = 4 ∧ data = endFrameBytes then
      (none, some .endStream, [])
    else
      match hdr with
      | some _ => (hdr, some (.audio data), [])
      | none => (hdr, none, ["Received data before PCM header"])

/-- Feeds a sequence of frames through `handleMessage`, starting from a given
protocol state, collecting the emitted events and warnings in order. -/
def runMessages (hdr : Option PcmHeader) (frames : List Frame) :
    Option PcmHeader × List MessageType × List String :=
  frames.foldl
    (fun acc f =>
      let r := handleMessage acc.1 f
      (r.1, acc.2.1 ++ r.2.1.toList, acc.2.2 ++ r.2.2))
    (hdr, [], [])

/-! ### Association-list maps (JS `Map` objects of SessionManager) -/

/-- Looks a key up (`Map.get`). -/
def mapGet {α : Type} : List (String × α) → String → Option α
  | [], _ => none
  | (k', v) :: rest, k => if k' = k then some v else mapGet rest k

/-- Inserts or replaces a binding (`Map.set`). -/
def mapSet {α : Type} : List (String × α) → String → α → List (String × α)
  | [], k, v => [(k, v)]
  | (k', v') :: rest, k, v =>
    if k' = k then (k, v) :: rest else (k', v') :: mapSet rest k v

/-- Removes a binding (`Map.delete`). -/
def mapDelete {α : Type} : List (String × α) → String → List (String × α)
  | [], _ => []
  | (k', v') :: rest, k =>
    if k' = k then mapDelete rest k else (k', v') :: mapDelete rest k

/-! ### Session manager (SessionManager) -/

/-- Session constraints (`SessionConfig`, all fields resolved to their
defaults or the supplied values, as the constructor does). -/
structure SessionConfig where
  maxBytes : Nat
  maxDurationMs : Nat
  maxChunks : Nat
  idleTimeoutMs : Nat
  deriving DecidableEq, Repr

/-- Streaming session state (types `StreamingSession`).  `extra` models the
dynamic properties written by `setSessionData` through
`(session as any)[key] = value`; `value` is modelled as a number.  A write
whose key names one of the numeric built-in fields (`totalBytes`,
`startTime`) overwrites that field, exactly as the dynamic assignment does
in the source; writes to the non-numeric built-ins (`sessionId`,
`dataChunks`, `header`) would likewise overwrite those fields in the source
but lie outside the numeric value universe modelled here, and every theorem
below excludes those keys by hypothesis. -/
structure StreamingSession where
  sessionId : String
  dataChunks : List (List Nat)
  startTime : Nat
  totalBytes : Nat
  header : Option PcmHeader
  extra : List (String × Nat)
  deriving DecidableEq, Repr

/-- The manager's mutable state: the two `Map`s plus the resolved config. -/
structure ManagerState where
  sessions : List (String × StreamingSession)
  lastActivity : List (String × Nat)
  config : SessionConfig
  deriving DecidableEq, Repr

/-- A manager with no sessions. -/
def emptyManager (cfg : SessionConfig) : ManagerState :=
  { sessions := [], lastActivity := [], config := cfg }

/-- Lifecycle notifications delivered through the injected callbacks. -/
inductive Notification where
  | onCreate (s : StreamingSession)
  | onEnd (s : StreamingSession)
  | onLimitExceeded (s : StreamingSession) (reason : String)
  | onIdle (s : StreamingSession)
  deriving DecidableEq, Repr

/-- Behaviour of the injected `onCreate` callback: returns normally, returns
a promise that later rejects, or throws synchronously. -/
inductive CbOutcome where
  | ok
  | asyncReject
  | syncThrow
  deriving DecidableEq, Repr

/-- Result of `createSession`.  `returned` is the session handed back to the
caller, or `none` when an exception escaped `createSession` itself (so the
caller received nothing); `notes` are the callback invocations; `logs` the
console lines printed synchronously or by the rejection handler. -/
structure CreateResult where
  returned : Option StreamingSession
  state : ManagerState
  notes : List Notification
  logs : List String
  deriving DecidableEq, Repr

/-- Embedding of `SessionManager.createSession`.  The source inserts the
fresh session into both maps, then evaluates
`Promise.resolve(this.callbacks.onCreate(session)).catch(...)`: the callback
is invoked before `Promise.resolve` wraps its result, so a synchronous throw
escapes `createSession` (after the maps were already mutated), while an
asynchronous rejection is caught and logged. -/
def createSession (m : ManagerState) (sessionId : String)
    (header : Option PcmHeader) (now : Nat) (cb : CbOutcome) : CreateResult :=
  let session : StreamingSession :=
    { sessionId := sessionId, dataChunks := [], startTime := now,
      totalBytes := 0, header := header, extra := [] }
  let m' : ManagerState :=
    { m with sessions := mapSet m.sessions sessionId session,
             lastActivity := mapSet m.lastActivity sessionId now }
  match cb with
  | .syncThrow =>
    { returned := none, state := m', notes := [.onCreate session], logs := [] }
  | .asyncReject =>
    { returned := some session, state := m', notes := [.onCreate session],
      logs := ["Session created", "Error in onCreate callback"] }
  | .ok =>
    { returned := some session, state := m', notes := [.onCreate session],
      logs := ["Session created"] }

/-- Embedding of `SessionManager.addChunk`.  Quotas are checked in source
order against the pre-chunk state: byte size, then duration, then chunk
count; the first violation notifies `onLimitExceeded` with its reason and
returns false leaving the state untouched.  The duration comparison is JS
number arithmetic on timestamps, modelled over ℤ. -/
def addChunk (m : ManagerState) (sessionId : String) (chunk : List Nat)
    (now : Nat) : Bool × ManagerState × List Notification :=
  match mapGet m.sessions sessionId with
  | none => (false, m, [])
  | some session =>
    let newTotalBytes := session.totalBytes + chunk.length
    if newTotalBytes > m.config.maxBytes then
      (false, m, [.onLimitExceeded session "max_bytes"])
    else if (now : ℤ) - session.startTime > (m.config.maxDurationMs : ℤ) then
      (false, m, [.onLimitExceeded session "max_duration"])
    else if session.dataChunks.length ≥ m.config.maxChunks then
      (false, m, [.onLimitExceeded session "max_chunks"])
    else
      let session' :=
        { session with dataChunks := session.dataChunks ++ [chunk],
                       totalBytes := newTotalBytes }
      (true,
       { m with sessions := mapSet m.sessions sessionId session',
                lastActivity := mapSet m.lastActivity sessionId now },
       [])

/-- Statistics returned by `getStats`. -/
structure SessionStats where
  duration : ℤ
  totalBytes : Nat
  chunkCount : Nat
  audioDuration : ℚ
  deriving DecidableEq, Repr

/-- Embedding of `SessionManager.getStats`. -/
def getStats (m : ManagerState) (sessionId : String) (now : Nat) :
    Option SessionStats :=
  match mapGet m.sessions sessionId with
  | none => none
  | some session =>
    some { duration := (now : ℤ) - session.startTime
           totalBytes := session.totalBytes
           chunkCount := session.dataChunks.length
           audioDuration :=
             match session.header with
             | some h =>
               if session.totalBytes > 0 then
                 calculateDuration session.totalBytes h.sample_rate
                   h.channels h.bits
               else 0
             | none => 0 }

/-- Embedding of `SessionManager.endSession`: removes the session from both
maps, invokes `onEnd` with the snapshot, returns it; absent sessions yield
`none` with no notification. -/
def endSession (m : ManagerState) (sessionId : String) :
    Option StreamingSession × ManagerState × List Notification :=
  match mapGet m.sessions sessionId with
  | none => (none, m, [])
  | some session =>
    (some session,
     { m with sessions := mapDelete m.sessions sessionId,
              lastActivity := mapDelete m.lastActivity sessionId },
     [.onEnd session])

/-- Dynamic property write `(session as any)[key] = value` for a numeric
value (see the note on `StreamingSession.extra`). -/
def jsSetProp (s : StreamingSession) (key : String) (value : Nat) :
    StreamingSession :=
  if key = "totalBytes" then { s with totalBytes := value }
  else if key = "startTime" then { s with startTime := value }
  else { s with extra := (key, value) :: s.extra }

/-- Embedding of `SessionManager.setSessionData` for numeric values. -/
def setSessionData (m : ManagerState) (sessionId key : String) (value : Nat) :
    Bool × ManagerState :=
  match mapGet m.sessions sessionId with
  | none => (false, m)
  | some session =>
    (true,
     { m with sessions :=
         mapSet m.sessions sessionId (jsSetProp session key value) })

/-- Dynamic property read `(session as any)[key]` for the modelled keys. -/
def jsGetProp (s : StreamingSession) (key : String) : Option Nat :=
  if key = "totalBytes" then some s.totalBytes
  else if key = "startTime" then some s.startTime
  else mapGet s.extra key

/-- Embedding of `SessionManager.getSessionData` for numeric values. -/
def getSessionData (m : ManagerState) (sessionId key : String) : Option Nat :=
  match mapGet m.sessions sessionId with
  | none => none
  | some session => jsGetProp session key

/-- Folds a sequence of `addChunk` calls (id, chunk, timestamp) over a
manager state, keeping only the state. -/
def runAddChunks (m : ManagerState)
    (calls : List (String × List Nat × Nat)) : ManagerState :=
  calls.foldl (fun st c => (addChunk st c.1 c.2.1 c.2.2).2.1) m

/-! ### Resampler (resampleInt16Mono in src/core/audio-conversion.ts) -/

/-- JS `Math.round`: round half towards positive infinity. -/
def jsRound (q : ℚ) : ℤ := ⌊q + 1 / 2⌋

/-- The clamp `Math.max(-32768, Math.min(32767, n))`. -/
def clamp16 (n : ℤ) : ℤ := max (-32768) (min 32767 n)

/-- Indexing a typed array: in range yields the element, out of range yields
`undefined` (modelled as `none`; arithmetic on it produces NaN). -/
def jsReadArr (pcm : List ℤ) (i : ℤ) : Option ℤ :=
  if h : 0 ≤ i ∧ i.toNat < pcm.length then some (pcm.get ⟨i.toNat, h.2⟩)
  else none

/-- Embedding of `resampleInt16Mono`.  Samples are the int16 values of the
input array; rates are taken as rationals and the floating-point
interpolation arithmetic is read exactly over ℚ (the claims about this
function read it that way).  When either array read is out of range the JS
expression evaluates to NaN, which an `Int16Array` element store converts to
0; the `none` branch models that. -/
def resampleInt16Mono (pcm : List ℤ) (srcRate dstRate : ℚ) : List ℤ :=
  if srcRate = dstRate then pcm
  else
    let rq : ℚ := dstRate / srcRate
    let outLen : Nat := max 1 (⌊(pcm.length : ℚ) * rq⌋.toNat)
    (List.range outLen).map fun (i : ℕ) =>
      let srcPos : ℚ := (i : ℚ) / rq
      let i0 : ℤ := ⌊srcPos⌋
      let i1 : ℤ := min ((pcm.length : ℤ) - 1) (i0 + 1)
      match jsReadArr pcm i0, jsReadArr pcm i1 with
      | some a, some b =>
        let t : ℚ := srcPos - (i0 : ℚ)
        clamp16 (jsRound ((1 - t) * a + t * b))
      | _, _ => 0

/-! ### Specification predicates and sample states used by the theorems -/

/-- Statement of the quota-order contract of `addChunk` for an existing
session `s`: the three quotas are judged against the pre-chunk state in the
fixed order bytes, duration, chunk count; the first violation notifies its
reason and leaves the state untouched; if none is violated the chunk is
appended, `totalBytes` increased by its length, last activity refreshed and
`true` returned. -/
def AddChunkSpec (m : ManagerState) (sessionId : String) (chunk : List Nat)
    (now : Nat) (s : StreamingSession) : Prop :=
  (s.totalBytes + chunk.length > m.config.maxBytes →
    addChunk m sessionId chunk now =
      (false, m, [.onLimitExceeded s "max_bytes"])) ∧
  (¬ s.totalBytes + chunk.length > m.config.maxBytes →
    (now : ℤ) - s.startTime > (m.config.maxDurationMs : ℤ) →
    addChunk m sessionId chunk now =
      (false, m, [.onLimitExceeded s "max_duration"])) ∧
  (¬ s.totalBytes + chunk.length > m.config.maxBytes →
    ¬ (now : ℤ) - s.startTime > (m.config.maxDurationMs : ℤ) →
    s.dataChunks.length ≥ m.config.maxChunks →
    addChunk m sessionId chunk now =
      (false, m, [.onLimitExceeded s "max_chunks"])) ∧
  (¬ s.totalBytes + chunk.length > m.config.maxBytes →
    ¬ (now : ℤ) - s.startTime > (m.config.maxDurationMs : ℤ) →
    ¬ s.dataChunks.length ≥ m.config.maxChunks →
    (addChunk m sessionId chunk now).1 = true ∧
    (addChunk m sessionId chunk now).2.2 = [] ∧
    mapGet (addChunk m sessionId chunk now).2.1.sessions sessionId =
      some { s with dataChunks := s.dataChunks ++ [chunk],
                    totalBytes := s.totalBytes + chunk.length } ∧
    mapGet (addChunk m sessionId chunk now).2.1.lastActivity sessionId =
      some now)

/-- Statement of the failure contract of `parsePcmHeader`: it fails exactly
when the buffer is shorter than 16 bytes or its first four bytes are not the
ASCII codes of "PCM1", and otherwise returns the fully populated header read
little-endian. -/
def ParseFailureSpec (buffer : List Nat) : Prop :=
  (parsePcmHeader buffer = none ↔
    buffer.length < 16 ∨ buffer.take 4 ≠ [80, 67, 77, 49]) ∧
  (16 ≤ buffer.length → buffer.take 4 = [80, 67, 77, 49] →
    parsePcmHeader buffer =
      some { magic := "PCM1", sample_rate := readU32LE buffer 4,
             channels := byteAt buffer 8, bits := byteAt buffer 9,
             frame_samps := readU16LE buffer 10,
             reserved := readU16LE buffer 12 })

/-- Statement of the double-end contract of `endSession` for an existing
session `s`: the first call removes the session, notifies `onEnd` once and
returns the snapshot; the second call returns `none`, changes nothing and
notifies nobody; `getStats` afterwards returns `none`. -/
def EndTwiceSpec (m : ManagerState) (sessionId : String) (now : Nat)
    (s : StreamingSession) : Prop :=
  (endSession m sessionId).1 = some s ∧
  (endSession m sessionId).2.2 = [.onEnd s] ∧
  mapGet (endSession m sessionId).2.1.sessions sessionId = none ∧
  endSession (endSession m sessionId).2.1 sessionId =
    (none, (endSession m sessionId).2.1, []) ∧
  getStats (endSession m sessionId).2.1 sessionId now = none

/-- The quota bookkeeping invariant of the session store: every stored
session's `totalBytes` equals the summed lengths of its admitted chunks and
never exceeds the byte quota. -/
def ManagerQuotaInv (m : ManagerState) : Prop :=
  ∀ sessionId s, mapGet m.sessions sessionId = some s →
    s.totalBytes = (s.dataChunks.map List.length).sum ∧
    s.totalBytes ≤ m.config.maxBytes

/-- A small concrete configuration used to evaluate the theorems. -/
def demoConfig : SessionConfig :=
  { maxBytes := 10, maxDurationMs := 100, maxChunks := 3, idleTimeoutMs := 5 }

/-- A concrete session holding one admitted one-byte chunk. -/
def demoSession : StreamingSession :=
  { sessionId := "dev", dataChunks := [[1]], startTime := 0, totalBytes := 1,
    header := none, extra := [] }

/-- A concrete manager state holding `demoSession`. -/
def demoManager : ManagerState :=
  { sessions := [("dev", demoSession)], lastActivity := [("dev", 0)],
    config := demoConfig }

/-- The session stored after admitting chunk `[1, 2]` into a session created
fresh at time 0. -/
def demoSessionAfter : StreamingSession :=
  { sessionId := "dev", dataChunks := [[1, 2]], startTime := 0,
    totalBytes := 2, header := none, extra := [] }

/-- The concrete 16-byte header frame for 16 kHz mono 16-bit, 320 samples
per frame. -/
def demoHeaderFrame : List Nat := createPcmHeader 16000 1 16 320

/-! ### Helper lemmas -/

lemma mapGet_mapSet_self {α : Type} (l : List (String × α)) (k : String)
    (v : α) : mapGet (mapSet l k v) k = some v := by
  induction l with
  | nil => simp [mapSet, mapGet]
  | cons p rest ih =>
    obtain ⟨k', v'⟩ := p
    by_cases h : k' = k <;> simp [mapSet, mapGet, h, ih]

lemma mapGet_mapSet_ne {α : Type} (l : List (String × α)) (k k' : String)
    (v : α) (h : k' ≠ k) : mapGet (mapSet l k v) k' = mapGet l k' := by
  induction l with
  | nil => simp [mapSet, mapGet, Ne.symm h]
  | cons p rest ih =>
    obtain ⟨k0, v0⟩ := p
    by_cases h0 : k0 = k
    · subst h0
      simp [mapSet, mapGet, Ne.symm h]
    · simp [mapSet, mapGet, h0, ih]

lemma mapGet_mapDelete_self {α : Type} (l : List (String × α)) (k : String) :
    mapGet (mapDelete l k) k = none := by
  induction l with
  | nil => simp [mapDelete, mapGet]
  | cons p rest ih =>
    obtain ⟨k0, v0⟩ := p
    by_cases h0 : k0 = k <;> simp [mapDelete, mapGet, h0, ih]

set_option maxRecDepth 8192 in
lemma charOfNat_pcm1_cases : ∀ b : Nat, b < 256 →
    ((Char.ofNat b = 'P' ↔ b = 80) ∧ (Char.ofNat b = 'C' ↔ b = 67) ∧
     (Char.ofNat b = 'M' ↔ b = 77) ∧ (Char.ofNat b = '1' ↔ b = 49)) := by
  decide

lemma fromCharCode4_eq_pcm1 (b0 b1 b2 b3 : Nat) (rest : List Nat)
    (h0 : b0 < 256) (h1 : b1 < 256) (h2 : b2 < 256) (h3 : b3 < 256) :
    fromCharCode4 (b0 :: b1 :: b2 :: b3 :: rest) = "PCM1" ↔
      b0 = 80 ∧ b1 = 67 ∧ b2 = 77 ∧ b3 = 49 := by
  have e : ("PCM1" : String) = String.mk ['P', 'C', 'M', '1'] := rfl
  simp only [fromCharCode4, byteAt, List.getD, List.get?, Option.getD_some, e,
    String.ext_iff]
  simp only [List.cons.injEq, and_true]
  rw [(charOfNat_pcm1_cases b0 h0).1, (charOfNat_pcm1_cases b1 h1).2.1,
    (charOfNat_pcm1_cases b2 h2).2.2.1, (charOfNat_pcm1_cases b3 h3).2.2.2]

lemma addChunk_preserves_inv (m : ManagerState) (sessionId : String)
    (chunk : List Nat) (now : Nat) (h : ManagerQuotaInv m) :
    ManagerQuotaInv (addChunk m sessionId chunk now).2.1 := by
  unfold addChunk
  cases hm : mapGet m.sessions sessionId with
  | none => exact h
  | some s =>
    dsimp only
    split_ifs with h1 h2 h3
    · exact h
    · exact h
    · exact h
    · intro id' s' hs'
      dsimp only at hs' ⊢
      by_cases hid : id' = sessionId
      · subst hid
        rw [mapGet_mapSet_self] at hs'
        cases hs'
        obtain ⟨hsum, _⟩ := h id' s hm
        refine ⟨by simp [hsum], by dsimp only; omega⟩
      · rw [mapGet_mapSet_ne _ _ _ _ hid] at hs'
        exact h id' s' hs'

lemma addChunk_config (m : ManagerState) (sessionId : String)
    (chunk : List Nat) (now : Nat) :
    (addChunk m sessionId chunk now).2.1.config = m.config := by
  unfold addChunk
  cases hm : mapGet m.sessions sessionId with
  | none => rfl
  | some s =>
    dsimp only
    split_ifs <;> rfl

lemma createSession_inv (m : ManagerState) (sessionId : String)
    (header : Option PcmHeader) (now : Nat) (cb : CbOutcome)
    (h : ManagerQuotaInv m) :
    ManagerQuotaInv (createSession m sessionId header now cb).state := by
  unfold createSession
  cases cb <;>
  · intro id' s' hs'
    dsimp only at hs'
    by_cases hid : id' = sessionId
    · subst hid
      rw [mapGet_mapSet_self] at hs'
      cases hs'
      exact ⟨rfl, Nat.zero_le _⟩
    · rw [mapGet_mapSet_ne _ _ _ _ hid] at hs'
      exact h id' s' hs'

lemma runAddChunks_inv (calls : List (String × List Nat × Nat))
    (m : ManagerState) (h : ManagerQuotaInv m) :
    ManagerQuotaInv (runAddChunks m calls) := by
  induction calls generalizing m with
  | nil => exact h
  | cons c rest ih => exact ih _ (addChunk_preserves_inv _ _ _ _ h)

lemma runAddChunks_config (calls : List (String × List Nat × Nat))
    (m : ManagerState) : (runAddChunks m calls).config = m.config := by
  induction calls generalizing m with
  | nil => rfl
  | cons c rest ih =>
    show (runAddChunks (addChunk m c.1 c.2.1 c.2.2).2.1 rest).config = m.config
    rw [ih, addChunk_config]

/-! ### Claim theorems -/

/-- Claim C1: for every existing session, `addChunk` evaluates the byte-size,
duration and chunk-count quotas in this fixed order against the pre-chunk
state; the first violated quota triggers an `onLimitExceeded` notification
with its reason and the call returns false with the whole manager state
unchanged; when all three pass, the chunk is appended, its length added to
`totalBytes`, last activity refreshed to `now`, and true returned. -/
theorem addChunk_quota_order (m : ManagerState) (sessionId : String)
    (chunk : List Nat) (now : Nat) (s : StreamingSession)
    (h : mapGet m.sessions sessionId = some s) :
    AddChunkSpec m sessionId chunk now s := by
  unfold AddChunkSpec addChunk
  rw [h]
  dsimp only
  refine ⟨fun hb => ?_, fun hb hd => ?_, fun hb hd hc => ?_, fun hb hd hc => ?_⟩
  · rw [if_pos hb]
  · rw [if_neg hb, if_pos hd]
  · rw [if_neg hb, if_neg hd, if_pos hc]
  · rw [if_neg hb, if_neg hd, if_neg hc]
    exact ⟨rfl, rfl, mapGet_mapSet_self _ _ _, mapGet_mapSet_self _ _ _⟩

/-- Witness for C1 at a concrete admissible chunk. -/
theorem addChunk_quota_order_witness :
    mapGet demoManager.sessions "dev" = some demoSession ∧
    AddChunkSpec demoManager "dev" [2, 3] 7 demoSession :=
  ⟨by decide, addChunk_quota_order demoManager "dev" [2, 3] 7 demoSession
    (by decide)⟩

/-- Claim C2: starting from a freshly created session, after any sequence of
`addChunk` calls every stored session satisfies `totalBytes` = sum of the
lengths of its admitted chunks, and `totalBytes` never exceeds `maxBytes`. -/
theorem totalBytes_invariant (cfg : SessionConfig) (sessionId : String)
    (header : Option PcmHeader) (now : Nat) (cb : CbOutcome)
    (calls : List (String × List Nat × Nat)) (id' : String)
    (s : StreamingSession)
    (hs : mapGet (runAddChunks
        (createSession (emptyManager cfg) sessionId header now cb).state
        calls).sessions id' = some s) :
    s.totalBytes = (s.dataChunks.map List.length).sum ∧
    s.totalBytes ≤ cfg.maxBytes := by
  have hinv : ManagerQuotaInv (runAddChunks
      (createSession (emptyManager cfg) sessionId header now cb).state
      calls) :=
    runAddChunks_inv _ _ (createSession_inv _ _ _ _ _ (fun _ _ h => by
      simp [emptyManager, mapGet] at h))
  have hcfg : (runAddChunks
      (createSession (emptyManager cfg) sessionId header now cb).state
      calls).config = cfg := by
    rw [runAddChunks_config]
    cases cb <;> rfl
  obtain ⟨ha, hb⟩ := hinv id' s hs
  exact ⟨ha, hcfg ▸ hb⟩

/-- Witness for C2: one admitted chunk of two bytes. -/
theorem totalBytes_invariant_witness :
    mapGet (runAddChunks
        (createSession (emptyManager demoConfig) "dev" none 0 .ok).state
        [("dev", [1, 2], 7)]).sessions "dev" = some demoSessionAfter ∧
    (demoSessionAfter.totalBytes =
        (demoSessionAfter.dataChunks.map List.length).sum ∧
      demoSessionAfter.totalBytes ≤ demoConfig.maxBytes) :=
  ⟨by decide, totalBytes_invariant demoConfig "dev" none 0 .ok
    [("dev", [1, 2], 7)] "dev" demoSessionAfter (by decide)⟩

/-- Claim C3: for all field values within the widths u32/u8/u8/u16, decoding
the 16-byte buffer produced by `createPcmHeader` reproduces the same four
field values exactly, with magic "PCM1" and reserved 0. -/
theorem pcm_header_roundtrip (sr ch bits fs : Nat) (h1 : sr < 2 ^ 32)
    (h2 : ch < 2 ^ 8) (h3 : bits < 2 ^ 8) (h4 : fs < 2 ^ 16) :
    parsePcmHeader (createPcmHeader sr ch bits fs) =
      some { magic := "PCM1", sample_rate := sr, channels := ch, bits := bits,
             frame_samps := fs, reserved := 0 } := by
  simp only [parsePcmHeader, createPcmHeader, fromCharCode4, byteAt, readU32LE,
    readU16LE, List.getD, List.length_cons, List.length_nil]
  norm_num [show String.mk [Char.ofNat 80, Char.ofNat 67, Char.ofNat 77,
    Char.ofNat 49] = "PCM1" by decide]
  refine ⟨?_, ?_, ?_, ?_⟩ <;> omega

/-- Witness for C3: the scenario (16000, 1, 16, 320) from the spec. -/
theorem pcm_header_roundtrip_witness :
    (16000 < 2 ^ 32 ∧ 1 < 2 ^ 8 ∧ 16 < 2 ^ 8 ∧ 320 < 2 ^ 16) ∧
    parsePcmHeader (createPcmHeader 16000 1 16 320) =
      some { magic := "PCM1", sample_rate := 16000, channels := 1, bits := 16,
             frame_samps := 320, reserved := 0 } :=
  ⟨by decide, pcm_header_roundtrip 16000 1 16 320 (by decide) (by decide)
    (by decide) (by decide)⟩

/-- Claim C4: from the initial AWAITING_HEADER state the frame sequence
[valid header frame, audio, audio, end frame, audio] emits exactly
[header-event, audio-event, audio-event, end-event], drops the trailing
audio frame with one warning and no event, ends back in AWAITING_HEADER;
and the end frame maps any state to AWAITING_HEADER with an end event. -/
theorem frame_classifier_scenario :
    runMessages none [.bin demoHeaderFrame, .bin [1, 2, 3], .bin [4, 5, 6],
        .bin endFrameBytes, .bin [7, 8, 9]] =
      (none,
       [.header demoHeaderFrame
          { magic := "PCM1", sample_rate := 16000, channels := 1, bits := 16,
            frame_samps := 320, reserved := 0 },
        .audio [1, 2, 3], .audio [4, 5, 6], .endStream],
       ["Received data before PCM header"]) ∧
    ∀ hdr : Option PcmHeader,
      handleMessage hdr (.bin endFrameBytes) = (none, some .endStream, []) := by
  refine ⟨by decide, fun hdr => ?_⟩
  cases hdr with
  | none => decide
  | some h => simp [handleMessage, endFrameBytes]

/-- Claim C5: `parsePcmHeader` fails exactly when the buffer is shorter than
16 bytes or its first four bytes differ from the ASCII magic "PCM1";
otherwise it returns the fully populated little-endian header. -/
theorem parse_failure_iff (buffer : List Nat)
    (hb : ∀ b ∈ buffer, b < 256) : ParseFailureSpec buffer := by
  unfold ParseFailureSpec
  by_cases hlen : buffer.length < 16
  · refine ⟨by simp [parsePcmHeader, hlen], fun h => by omega⟩
  · rcases buffer with _ | ⟨b0, buffer⟩
    · exact absurd (by simp) hlen
    rcases buffer with _ | ⟨b1, buffer⟩
    · exact absurd (by simp) hlen
    rcases buffer with _ | ⟨b2, buffer⟩
    · exact absurd (by simp) hlen
    rcases buffer with _ | ⟨b3, rest⟩
    · exact absurd (by simp) hlen
    have h0 : b0 < 256 := hb b0 (by simp)
    have h1 : b1 < 256 := hb b1 (by simp)
    have h2 : b2 < 256 := hb b2 (by simp)
    have h3 : b3 < 256 := hb b3 (by simp)
    have htake : (b0 :: b1 :: b2 :: b3 :: rest).take 4 = [b0, b1, b2, b3] := rfl
    have hbridge := fromCharCode4_eq_pcm1 b0 b1 b2 b3 rest h0 h1 h2 h3
    rw [htake]
    constructor
    · rw [parsePcmHeader, if_neg hlen]
      split_ifs with hm
      · simp only [reduceCtorEq, false_iff]
        push_neg
        obtain ⟨e0, e1, e2, e3⟩ := hbridge.mp hm
        exact ⟨by omega, by simp [e0, e1, e2, e3]⟩
      · simp only [true_iff]
        right
        intro he
        simp only [List.cons.injEq, and_true] at he
        exact hm (hbridge.mpr ⟨he.1, he.2.1, he.2.2.1, he.2.2.2⟩)
    · intro _ htake4
      simp only [List.cons.injEq, and_true] at htake4
      obtain ⟨e0, e1, e2, e3⟩ := htake4
      subst e0; subst e1; subst e2; subst e3
      rw [parsePcmHeader, if_neg hlen, if_pos (hbridge.mpr ⟨rfl, rfl, rfl, rfl⟩)]
      rw [show fromCharCode4 (80 :: 67 :: 77 :: 49 :: rest) = "PCM1" from
        hbridge.mpr ⟨rfl, rfl, rfl, rfl⟩]

/-- Witness for C5 at the concrete valid 16-byte header frame. -/
theorem parse_failure_iff_witness :
    (∀ b ∈ demoHeaderFrame, b < 256) ∧ ParseFailureSpec demoHeaderFrame :=
  ⟨by decide, parse_failure_iff demoHeaderFrame (by decide)⟩

/-- Claim C6: for an existing session, the first `endSession` removes it,
invokes the end notification once and returns the snapshot; the second call
returns `none` with no notification; `getStats` afterwards returns `none`. -/
theorem endSession_idempotent (m : ManagerState) (sessionId : String)
    (now : Nat) (s : StreamingSession)
    (h : mapGet m.sessions sessionId = some s) :
    EndTwiceSpec m sessionId now s := by
  unfold EndTwiceSpec endSession getStats
  rw [h]
  dsimp only
  rw [mapGet_mapDelete_self]
  exact ⟨rfl, rfl, rfl, rfl, rfl⟩

/-- Witness for C6 at the concrete one-session manager. -/
theorem endSession_idempotent_witness :
    mapGet demoManager.sessions "dev" = some demoSession ∧
    EndTwiceSpec demoManager "dev" 3 demoSession :=
  ⟨by decide, endSession_idempotent demoManager "dev" 3 demoSession (by decide)⟩

/-- Claim C7: for distinct positive rates the resampler's output length is
exactly `max 1 ⌊len * dstRate / srcRate⌋`, the formula read in exact
rational arithmetic. -/
theorem resample_length (pcm : List ℤ) (srcRate dstRate : ℚ)
    (hs : 0 < srcRate) (hd : 0 < dstRate) (hne : srcRate ≠ dstRate) :
    (resampleInt16Mono pcm srcRate dstRate).length =
      max 1 (⌊(pcm.length : ℚ) * dstRate / srcRate⌋.toNat) := by
  unfold resampleInt16Mono
  rw [if_neg hne, List.length_map, List.length_range, mul_div_assoc]

/-- Witness for C7: three samples resampled from rate 3 to rate 2 give two
output samples. -/
theorem resample_length_witness :
    (0 : ℚ) < 3 ∧ (0 : ℚ) < 2 ∧ (3 : ℚ) ≠ 2 ∧
    (resampleInt16Mono [0, 0, 0] 3 2).length = 2 :=
  ⟨by norm_num, by norm_num, by norm_num,
    (resample_length [0, 0, 0] 3 2 (by norm_num) (by norm_num)
      (by norm_num)).trans (by norm_num; rfl)⟩

/-- Claim C8 counterexample: `setSessionData` with the key "totalBytes"
overwrites the session's `totalBytes` field and flips the outcome of the
next quota check, so the sidecar store is not independent of quota
enforcement for every key. -/
theorem setSessionData_clobbers_counterexample :
    (setSessionData demoManager "dev" "totalBytes" 999999).1 = true ∧
    (mapGet (setSessionData demoManager "dev" "totalBytes" 999999).2.sessions
      "dev").map StreamingSession.totalBytes = some 999999 ∧
    (addChunk demoManager "dev" [2] 1).1 = true ∧
    (addChunk (setSessionData demoManager "dev" "totalBytes" 999999).2
      "dev" [2] 1).1 = false := by
  decide

/-- Claim C8 (amended): for keys that are not the names of the session's
built-in fields, `setSessionData` succeeds, only extends the sidecar store
(chunks, `totalBytes`, header and `startTime` unchanged), never touches the
last-activity map, and leaves the verdict of any subsequent `addChunk`
unchanged. -/
theorem setSessionData_sidecar_keys (m : ManagerState)
    (sessionId key : String) (value : Nat) (s : StreamingSession)
    (h : mapGet m.sessions sessionId = some s)
    (hk : key ∉ (["sessionId", "dataChunks", "startTime", "totalBytes",
      "header"] : List String)) :
    (setSessionData m sessionId key value).1 = true ∧
    mapGet (setSessionData m sessionId key value).2.sessions sessionId =
      some { s with extra := (key, value) :: s.extra } ∧
    (setSessionData m sessionId key value).2.lastActivity = m.lastActivity ∧
    ∀ chunk now,
      (addChunk (setSessionData m sessionId key value).2 sessionId
        chunk now).1 = (addChunk m sessionId chunk now).1 := by
  simp only [List.mem_cons, List.mem_singleton] at hk
  push_neg at hk
  obtain ⟨hk1, hk2, hk3, hk4, hk5⟩ := hk
  have hset : jsSetProp s key value =
      { s with extra := (key, value) :: s.extra } := by
    unfold jsSetProp
    rw [if_neg hk4, if_neg hk3]
  unfold setSessionData
  rw [h]
  dsimp only
  rw [hset]
  refine ⟨rfl, mapGet_mapSet_self _ _ _, rfl, ?_⟩
  intro chunk now
  unfold addChunk
  dsimp only
  rw [h, mapGet_mapSet_self]
  dsimp only
  split_ifs <;> rfl

/-- Witness for the amended C8 at the sidecar key "userId". -/
theorem setSessionData_sidecar_keys_witness :
    (mapGet demoManager.sessions "dev" = some demoSession ∧
      "userId" ∉ (["sessionId", "dataChunks", "startTime", "totalBytes",
        "header"] : List String)) ∧
    ((setSessionData demoManager "dev" "userId" 42).1 = true ∧
      mapGet (setSessionData demoManager "dev" "userId" 42).2.sessions
        "dev" = some { demoSession with extra := [("userId", 42)] } ∧
      (setSessionData demoManager "dev" "userId" 42).2.lastActivity =
        demoManager.lastActivity ∧
      ∀ chunk now,
        (addChunk (setSessionData demoManager "dev" "userId" 42).2 "dev"
          chunk now).1 = (addChunk demoManager "dev" chunk now).1) :=
  ⟨⟨by decide, by decide⟩,
    setSessionData_sidecar_keys demoManager "dev" "userId" 42 demoSession
      (by decide) (by decide)⟩

/-- Claim C9, evaluated at the failing input: an `onCreate` callback that
throws synchronously escapes `createSession` (the caller receives the
exception, not the session), although the fresh session was already
inserted into both maps; only an asynchronous rejection is contained, with
the error logged and the fresh session returned. -/
theorem createSession_syncThrow_escapes :
    (createSession (emptyManager demoConfig) "dev" none 5 .syncThrow).returned
      = none ∧
    mapGet (createSession (emptyManager demoConfig) "dev" none 5
      .syncThrow).state.sessions "dev" =
      some { sessionId := "dev", dataChunks := [], startTime := 5,
             totalBytes := 0, header := none, extra := [] } ∧
    mapGet (createSession (emptyManager demoConfig) "dev" none 5
      .syncThrow).state.lastActivity "dev" = some 5 ∧
    (createSession (emptyManager demoConfig) "dev" none 5 .asyncReject).returned
      = some { sessionId := "dev", dataChunks := [], startTime := 5,
               totalBytes := 0, header := none, extra := [] } ∧
    (createSession (emptyManager demoConfig) "dev" none 5 .asyncReject).logs
      = ["Session created", "Error in onCreate callback"] := by
  decide

/-- Claim C10: resampling the empty sample array at distinct positive rates
yields the one-element array `[0]`: the single interpolation step reads past
the end of the empty input (NaN), which the int16 output store turns into
0. -/
theorem resample_empty (srcRate dstRate : ℚ) (hs : 0 < srcRate)
    (hd : 0 < dstRate) (hne : srcRate ≠ dstRate) :
    resampleInt16Mono [] srcRate dstRate = [0] := by
  unfold resampleInt16Mono
  rw [if_neg hne]
  norm_num [jsReadArr, List.range_succ]

/-- Witness for C10 at rates 44100 and 16000. -/
theorem resample_empty_witness :
    (0 : ℚ) < 44100 ∧ (0 : ℚ) < 16000 ∧ (44100 : ℚ) ≠ 16000 ∧
    resampleInt16Mono [] 44100 16000 = [0] :=
  ⟨by norm_num, by norm_num, by norm_num,
    resample_empty 44100 16000 (by norm_num) (by norm_num) (by norm_num)⟩

end EspVoice
